import Mathlib

/-!
Verification development for the mgear flex rig-update tool.

The Python sources under study drive Maya's scene graph.  The embedding
below models, faithfully to the Python sources, the pure content of each
function: Python dicts become association lists with overwrite-on-insert
semantics, Maya's scene becomes explicit record states (dag nodes,
attribute stores, plug connection graphs), and every host command used by
the code (ls, connectAttr, disconnectAttr, dgeval, setAttr, getAttr,
listHistory, objExists, objectType) gets an explicit state-passing
semantics.
-/

set_option autoImplicit false

/-! ## Python dict model

A Python dict is an insertion-ordered map: assigning an existing key
overwrites its value in place, a fresh key is appended.  `dictOf` models
the `dict([(k, v), ...])` constructor, `dget?` models `d[k]` lookup and
`memKey` models `k in d`. -/

abbrev Entry := String × String

abbrev Dict := List Entry

def dinsert : Dict → String → String → Dict
  | [], k, v => [(k, v)]
  | p :: rest, k, v => if p.1 = k then (k, v) :: rest else p :: dinsert rest k v

def dictOf (l : List Entry) : Dict :=
  l.foldl (fun d p => dinsert d p.1 p.2) []

def dget? (d : Dict) (k : String) : Option String :=
  (d.find? (fun p => p.1 == k)).map (fun p => p.2)

def memKey (d : Dict) (k : String) : Bool :=
  d.any (fun p => p.1 == k)

theorem dget?_dinsert (d : Dict) (k v k' : String) :
    dget? (dinsert d k v) k' = if k' = k then some v else dget? d k' := by
  induction d with
  | nil =>
    by_cases h : k' = k
    · simp [dinsert, dget?, List.find?, h]
    · have h1 : (k == k') = false := by
        simpa using fun hc => h hc.symm
      simp [dinsert, dget?, List.find?, h, h1]
  | cons p rest ih =>
    by_cases hpk : p.1 = k
    · by_cases h : k' = k
      · simp [dinsert, dget?, List.find?, hpk, h]
      · have h1 : (k == k') = false := by
          simpa using fun hc => h hc.symm
        have h2 : (p.1 == k') = false := by
          rw [hpk]; exact h1
        simp [dinsert, dget?, List.find?, hpk, h, h1, h2]
    · by_cases hp' : p.1 = k'
      · have hk : ¬ k' = k := fun hc => hpk (hp'.trans hc)
        have h3 : (p.1 == k') = true := by simpa using hp'
        simp [dinsert, dget?, List.find?, hpk, hp', hk, h3]
      · have h3 : (p.1 == k') = false := by simpa using hp'
        simp only [dinsert, if_neg hpk, dget?, List.find?, h3]
        by_cases h : k' = k
        · simpa [dget?, h] using ih
        · simpa [dget?, h] using ih

theorem mem_dinsert (d : Dict) (k v : String) (q : Entry) :
    q ∈ dinsert d k v → q = (k, v) ∨ q ∈ d := by
  induction d with
  | nil => simp [dinsert]
  | cons p rest ih =>
    by_cases hpk : p.1 = k
    · simp [dinsert, hpk]
      rintro (h | h)
      · exact Or.inl h
      · exact Or.inr (Or.inr h)
    · simp [dinsert, hpk]
      rintro (h | h)
      · exact Or.inr (Or.inl h)
      · rcases ih h with h' | h'
        · exact Or.inl h'
        · exact Or.inr (Or.inr h')

theorem dinsert_fresh (d : Dict) (k v : String) (h : ∀ p ∈ d, p.1 ≠ k) :
    dinsert d k v = d ++ [(k, v)] := by
  induction d with
  | nil => simp [dinsert]
  | cons p rest ih =>
    have hp : p.1 ≠ k := h p (by simp)
    simp [dinsert, hp]
    exact ih (fun q hq => h q (by simp [hq]))

theorem keys_dinsert_nodup (d : Dict) (k v : String)
    (h : (d.map Prod.fst).Nodup) : ((dinsert d k v).map Prod.fst).Nodup := by
  induction d with
  | nil => simp [dinsert]
  | cons p rest ih =>
    by_cases hpk : p.1 = k
    · have heq : (dinsert (p :: rest) k v).map Prod.fst = k :: rest.map Prod.fst := by
        simp [dinsert, hpk]
      rw [heq, ← hpk]
      simpa using h
    · simp only [List.map_cons, List.nodup_cons] at h
      simp only [dinsert, if_neg hpk, List.map_cons, List.nodup_cons]
      refine ⟨fun hc => ?_, ih h.2⟩
      rcases List.mem_map.1 hc with ⟨q, hq, hq1⟩
      rcases mem_dinsert rest k v q hq with rfl | hq'
      · exact hpk hq1.symm
      · exact h.1 (List.mem_map.2 ⟨q, hq', hq1⟩)

theorem foldl_dinsert_eq (l : List Entry) :
    ∀ acc : Dict, (∀ p ∈ l, ∀ q ∈ acc, q.1 ≠ p.1) → (l.map Prod.fst).Nodup →
      l.foldl (fun d p => dinsert d p.1 p.2) acc = acc ++ l := by
  induction l with
  | nil => intro acc _ _; simp
  | cons p rest ih =>
    intro acc hfresh hnodup
    have h1 : dinsert acc p.1 p.2 = acc ++ [p] := by
      have := dinsert_fresh acc p.1 p.2
        (fun q hq => hfresh p (by simp) q hq)
      simpa using this
    simp only [List.foldl_cons, h1]
    rw [ih (acc ++ [p]) ?_ ?_]
    · simp
    · intro x hx q hq
      rcases List.mem_append.1 hq with hq' | hq'
      · exact hfresh x (by simp [hx]) q hq'
      · simp at hq'
        subst hq'
        simp only [List.map_cons, List.nodup_cons] at hnodup
        intro hc
        exact hnodup.1 (hc ▸ List.mem_map.2 ⟨x, hx, rfl⟩)
    · simpa using hnodup.of_cons

theorem dictOf_eq_self (l : List Entry) (h : (l.map Prod.fst).Nodup) :
    dictOf l = l := by
  simpa using foldl_dinsert_eq l [] (by simp) h

theorem keys_dictOf_nodup (l : List Entry) :
    ((dictOf l).map Prod.fst).Nodup := by
  have main : ∀ (t : List Entry) (acc : Dict), (acc.map Prod.fst).Nodup →
      ((t.foldl (fun d p => dinsert d p.1 p.2) acc).map Prod.fst).Nodup := by
    intro t
    induction t with
    | nil => intro acc h; simpa using h
    | cons p rest ih =>
      intro acc h
      exact ih _ (keys_dinsert_nodup acc p.1 p.2 h)
  simpa [dictOf] using main l [] (by simp)

theorem dget?_foldl (l : List Entry) :
    ∀ acc : Dict, ∀ k : String,
      dget? (l.foldl (fun d p => dinsert d p.1 p.2) acc) k =
        match l.reverse.find? (fun p => p.1 == k) with
        | some p => some p.2
        | none => dget? acc k := by
  induction l with
  | nil => intro acc k; simp
  | cons p rest ih =>
    intro acc k
    simp only [List.foldl_cons, List.reverse_cons]
    rw [ih]
    rw [List.find?_append]
    cases hfind : rest.reverse.find? (fun q => q.1 == k) with
    | some q => simp
    | none =>
      simp only [Option.none_orElse]
      rw [dget?_dinsert]
      by_cases h : p.1 = k
      · have h1 : (p.1 == k) = true := by simpa using h
        simp [List.find?, h1, h.symm]
      · have h1 : (p.1 == k) = false := by simpa using h
        have h2 : ¬ k = p.1 := fun hc => h hc.symm
        simp [List.find?, h1, h2]

theorem dget?_dictOf (l : List Entry) (k : String) :
    dget? (dictOf l) k = (l.reverse.find? (fun p => p.1 == k)).map (fun p => p.2) := by
  rw [dictOf, dget?_foldl]
  cases hfind : l.reverse.find? (fun p => p.1 == k) with
  | some q => simp
  | none => simp [dget?]

theorem mem_dictOf (l : List Entry) (q : Entry) (h : q ∈ dictOf l) :
    q.1 ∈ l.map Prod.fst := by
  have main : ∀ (t : List Entry) (acc : Dict), q ∈ t.foldl (fun d p => dinsert d p.1 p.2) acc →
      q ∈ acc ∨ q.1 ∈ t.map Prod.fst := by
    intro t
    induction t with
    | nil => intro acc h'; exact Or.inl (by simpa using h')
    | cons p rest ih =>
      intro acc h'
      simp only [List.foldl_cons] at h'
      rcases ih _ h' with h'' | h''
      · rcases mem_dinsert acc p.1 p.2 q h'' with rfl | hq
        · exact Or.inr (by simp)
        · exact Or.inl hq
      · exact Or.inr (by simp [h''])
  rcases main l [] (by simpa [dictOf] using h) with h' | h'
  · simp at h'
  · exact h'

theorem dget?_eq_some_of_mem (d : Dict) (a b : String)
    (hnodup : (d.map Prod.fst).Nodup) (h : (a, b) ∈ d) :
    dget? d a = some b := by
  induction d with
  | nil => simp at h
  | cons p rest ih =>
    simp only [List.map_cons, List.nodup_cons] at hnodup
    rcases List.mem_cons.1 h with rfl | h'
    · simp [dget?, List.find?]
    · have hp : ¬ p.1 = a := by
        intro hc
        exact hnodup.1 (hc ▸ List.mem_map.2 ⟨(a, b), h', rfl⟩)
      have : (p.1 == a) = false := by simp [hp]
      simpa [dget?, List.find?, this] using ih hnodup.2 h'

theorem mem_of_dget?_eq_some (d : Dict) (a b : String)
    (h : dget? d a = some b) : (a, b) ∈ d := by
  induction d with
  | nil => simp [dget?] at h
  | cons p rest ih =>
    rcases p with ⟨p1, p2⟩
    by_cases hp : p1 = a
    · have h1 : (p1 == a) = true := by simpa using hp
      simp only [dget?, List.find?] at h
      simp only [h1] at h
      have hb : p2 = b := by simpa using h
      subst hp
      subst hb
      exact List.mem_cons_self _ _
    · have h1 : (p1 == a) = false := by simpa using hp
      simp only [dget?, List.find?] at h
      simp only [h1] at h
      exact List.mem_cons_of_mem _ (ih h)

/-! ## Prefix-less names (flex.query.get_prefix_less_dict)

Python's `n.split("|")[-1]` is the suffix of `n` after the last occurrence
of `|` (the whole string when `|` does not occur); `afterLast` translates
exactly that. -/

def afterLast (c : Char) (l : List Char) : List Char :=
  (l.reverse.takeWhile (fun a => a != c)).reverse

def get_prefix_less_name (n : String) : String :=
  String.mk (afterLast ':' (afterLast '|' n.data))

def get_prefix_less_dict (elements : List String) : Dict :=
  dictOf (elements.map (fun n => (get_prefix_less_name n, n)))

theorem not_mem_afterLast (c : Char) (l : List Char) : c ∉ afterLast c l := by
  intro h
  simp only [afterLast, List.mem_reverse] at h
  have := List.mem_takeWhile_imp h
  simp at this

theorem mem_afterLast_subset (c : Char) (l : List Char) (a : Char)
    (h : a ∈ afterLast c l) : a ∈ l := by
  simp only [afterLast, List.mem_reverse] at h
  have := (List.takeWhile_sublist (l := l.reverse) (p := fun a => a != c)).mem h
  simpa using this

/-! Source translations of flex.query.get_matching_shapes and
flex.query.get_missing_shapes: iterate over the source dict keys, keep
those present (resp. absent) in the target dict. -/

def get_matching_shapes (source_shapes target_shapes : Dict) : Dict :=
  dictOf ((source_shapes.filter (fun p => memKey target_shapes p.1)).map
    (fun p => (p.2, (dget? target_shapes p.1).getD "")))

def get_missing_shapes (source_shapes target_shapes : Dict) : Dict :=
  dictOf ((source_shapes.filter (fun p => !(memKey target_shapes p.1))).map
    (fun p => (p.2, p.1)))

/-! ## Helper lemmas about prefix-less dictionaries -/

theorem pl_dict_eq (l : List String)
    (h : (l.map get_prefix_less_name).Nodup) :
    get_prefix_less_dict l = l.map (fun n => (get_prefix_less_name n, n)) := by
  apply dictOf_eq_self
  rw [List.map_map]
  simpa [Function.comp] using h

theorem dget?_map_pair (l : List String) (f : String → String) (k : String) :
    dget? (l.map (fun n => (f n, n))) k = l.find? (fun n => f n == k) := by
  simp only [dget?, List.find?_map]
  cases hfind : l.find? ((fun p : String × String => p.1 == k) ∘ (fun n => (f n, n))) with
  | none =>
    have : l.find? (fun n => f n == k) = none := hfind
    simp [this]
  | some n =>
    have : l.find? (fun n => f n == k) = some n := hfind
    simp [this]

theorem memKey_map_pair (l : List String) (f : String → String) (k : String) :
    memKey (l.map (fun n => (f n, n))) k = l.any (fun n => f n == k) := by
  induction l with
  | nil => rfl
  | cons a rest ih =>
    simp only [memKey, List.map_cons, List.any_cons]
    simp only [memKey] at ih
    rw [ih]

theorem find?_eq_some_of_nodup_map (l : List String) (f : String → String)
    (b k : String) (hn : (l.map f).Nodup) (hb : b ∈ l) (hfb : f b = k) :
    l.find? (fun n => f n == k) = some b := by
  induction l with
  | nil => simp at hb
  | cons a rest ih =>
    simp only [List.map_cons, List.nodup_cons] at hn
    rcases List.mem_cons.1 hb with rfl | hb'
    · have : (f b == k) = true := by simpa using hfb
      simp [List.find?, this]
    · have hfa : ¬ f a = k := by
        intro hc
        exact hn.1 (hc ▸ hfb ▸ List.mem_map.2 ⟨b, hb', rfl⟩)
      have : (f a == k) = false := by simpa using hfa
      simp only [List.find?, this]
      exact ih hn.2 hb'

/-- C2: shape matching between source and target groups is purely name
based.  Building the prefix-less dictionaries of both groups and running
get_matching_shapes yields exactly the map sending each source full name
to the target full name with the same prefix-less name (the part of the
node name after the last pipe and then after the last colon), with no
other entries, provided the prefix-less names in each group are pairwise
distinct. -/
theorem matching_shapes_name_based (src tgt : List String)
    (hs : (src.map get_prefix_less_name).Nodup)
    (ht : (tgt.map get_prefix_less_name).Nodup) (a b : String) :
    dget? (get_matching_shapes (get_prefix_less_dict src)
      (get_prefix_less_dict tgt)) a = some b
      ↔ a ∈ src ∧ b ∈ tgt ∧ get_prefix_less_name a = get_prefix_less_name b := by
  rw [pl_dict_eq src hs, pl_dict_eq tgt ht]
  rw [get_matching_shapes]
  rw [List.filter_map]
  rw [List.map_map]
  set T := tgt.map (fun n => (get_prefix_less_name n, n)) with hT
  set L := (src.filter ((fun p : String × String => memKey T p.1) ∘
    (fun n => (get_prefix_less_name n, n)))).map
    ((fun p : String × String => (p.2, (dget? T p.1).getD "")) ∘
      (fun n => (get_prefix_less_name n, n))) with hL
  have hsrc_nodup : src.Nodup := hs.of_map _
  have hLkeys : (L.map Prod.fst).Nodup := by
    rw [hL, List.map_map]
    have : (Prod.fst ∘ ((fun p : String × String => (p.2, (dget? T p.1).getD "")) ∘
        (fun n => (get_prefix_less_name n, n)))) = fun n => n := rfl
    rw [this]
    have hsub := (List.filter_sublist src (p := (fun p : String × String => memKey T p.1) ∘
      (fun n => (get_prefix_less_name n, n)))).map (fun n => n)
    exact hsub.nodup (by simpa using hsrc_nodup)
  have hdict : dictOf L = L := dictOf_eq_self L hLkeys
  rw [hdict]
  constructor
  · intro h
    have hmem := mem_of_dget?_eq_some L a b h
    rw [hL] at hmem
    rcases List.mem_map.1 hmem with ⟨n, hn, hn2⟩
    rcases List.mem_filter.1 hn with ⟨hnsrc, hnP⟩
    simp only [Function.comp] at hn2 hnP
    have hna : n = a := congrArg Prod.fst hn2
    subst hna
    have hb : (dget? T (get_prefix_less_name n)).getD "" = b :=
      congrArg Prod.snd hn2
    rw [hT, dget?_map_pair] at hb
    rw [hT, memKey_map_pair] at hnP
    rcases List.any_eq_true.1 hnP with ⟨t, htmem, htp⟩
    have hfind := find?_eq_some_of_nodup_map tgt get_prefix_less_name t
      (get_prefix_less_name n) ht htmem (by simpa using htp)
    rw [hfind] at hb
    simp only [Option.getD_some] at hb
    subst hb
    refine ⟨hnsrc, htmem, ?_⟩
    have hbeq := List.find?_some hfind
    exact (eq_of_beq (by simpa using hbeq)).symm
  · rintro ⟨ha, hb, hpl⟩
    have hfind : tgt.find? (fun t => get_prefix_less_name t ==
        get_prefix_less_name a) = some b :=
      find?_eq_some_of_nodup_map tgt get_prefix_less_name b
        (get_prefix_less_name a) ht hb hpl.symm
    have hP : memKey T (get_prefix_less_name a) = true := by
      rw [hT, memKey_map_pair]
      exact List.any_eq_true.2 ⟨b, hb, by simpa using hpl.symm⟩
    apply dget?_eq_some_of_mem L a b hLkeys
    rw [hL]
    apply List.mem_map.2
    refine ⟨a, List.mem_filter.2 ⟨ha, by simpa [Function.comp] using hP⟩, ?_⟩
    simp only [Function.comp]
    rw [hT, dget?_map_pair, hfind]
    rfl

/-- C2 witness: a concrete referenced source shape and imported target
shape with equal prefix-less names get matched. -/
theorem matching_shapes_name_based_witness :
    dget? (get_matching_shapes (get_prefix_less_dict ["scene:ns:body", "top|arm"])
      (get_prefix_less_dict ["rig|char|body", "leg"])) "scene:ns:body" =
      some "rig|char|body" :=
  (matching_shapes_name_based ["scene:ns:body", "top|arm"]
    ["rig|char|body", "leg"] (by decide) (by decide)
    "scene:ns:body" "rig|char|body").mpr ⟨by decide, by decide, by decide⟩

/-- C8: get_matching_shapes and get_missing_shapes partition the source
dict entries: each source key feeds exactly one of the two results, and
when the source values are pairwise distinct the sizes of the two results
add up to the size of the source dict. -/
theorem matching_missing_partition (src tgt : Dict)
    (hvals : (src.map Prod.snd).Nodup) :
    ((get_matching_shapes src tgt).length + (get_missing_shapes src tgt).length
        = src.length)
    ∧ ∀ p ∈ src,
      (memKey tgt p.1 = true →
        memKey (get_matching_shapes src tgt) p.2 = true ∧
        memKey (get_missing_shapes src tgt) p.2 = false)
      ∧ (memKey tgt p.1 = false →
        memKey (get_missing_shapes src tgt) p.2 = true ∧
        memKey (get_matching_shapes src tgt) p.2 = false) := by
  have hfst1 : (Prod.fst ∘ (fun p : Entry => (p.2, (dget? tgt p.1).getD "")))
      = Prod.snd := rfl
  have hfst2 : (Prod.fst ∘ (fun p : Entry => (p.2, p.1))) = Prod.snd := rfl
  have hMkeys : (((src.filter (fun p => memKey tgt p.1)).map
      (fun p => (p.2, (dget? tgt p.1).getD ""))).map Prod.fst).Nodup := by
    rw [List.map_map, hfst1]
    exact ((List.filter_sublist src).map Prod.snd).nodup hvals
  have hMisskeys : (((src.filter (fun p => !(memKey tgt p.1))).map
      (fun p => (p.2, p.1))).map Prod.fst).Nodup := by
    rw [List.map_map, hfst2]
    exact ((List.filter_sublist src).map Prod.snd).nodup hvals
  have hM : get_matching_shapes src tgt = (src.filter (fun p => memKey tgt p.1)).map
      (fun p => (p.2, (dget? tgt p.1).getD "")) := dictOf_eq_self _ hMkeys
  have hMiss : get_missing_shapes src tgt = (src.filter (fun p => !(memKey tgt p.1))).map
      (fun p => (p.2, p.1)) := dictOf_eq_self _ hMisskeys
  constructor
  · rw [hM, hMiss, List.length_map, List.length_map]
    have h := List.length_eq_length_filter_add (l := src) (fun p => memKey tgt p.1)
    omega
  · intro p hp
    have hinj := List.inj_on_of_nodup_map hvals
    constructor
    · intro hP
      constructor
      · rw [hM]
        apply List.any_eq_true.2
        exact ⟨(p.2, (dget? tgt p.1).getD ""),
          List.mem_map.2 ⟨p, List.mem_filter.2 ⟨hp, hP⟩, rfl⟩, by simp⟩
      · rw [hMiss]
        have hnot : ¬ (memKey ((src.filter (fun q => !(memKey tgt q.1))).map
            (fun q => (q.2, q.1))) p.2 = true) := by
          intro hc
          rcases List.any_eq_true.1 hc with ⟨e, he, hbeq⟩
          rcases List.mem_map.1 he with ⟨q, hq, rfl⟩
          rcases List.mem_filter.1 hq with ⟨hqsrc, hqP⟩
          have hq2 : q.2 = p.2 := by simpa using hbeq
          have hqp : q = p := hinj hqsrc hp hq2
          rw [hqp, hP] at hqP
          simp at hqP
        exact Bool.eq_false_iff.mpr hnot
    · intro hP
      constructor
      · rw [hMiss]
        apply List.any_eq_true.2
        exact ⟨(p.2, p.1),
          List.mem_map.2 ⟨p, List.mem_filter.2 ⟨hp, by rw [hP]; rfl⟩, rfl⟩, by simp⟩
      · rw [hM]
        have hnot : ¬ (memKey ((src.filter (fun q => memKey tgt q.1)).map
            (fun q => (q.2, (dget? tgt q.1).getD ""))) p.2 = true) := by
          intro hc
          rcases List.any_eq_true.1 hc with ⟨e, he, hbeq⟩
          rcases List.mem_map.1 he with ⟨q, hq, rfl⟩
          rcases List.mem_filter.1 hq with ⟨hqsrc, hqP⟩
          have hq2 : q.2 = p.2 := by simpa using hbeq
          have hqp : q = p := hinj hqsrc hp hq2
          rw [hqp, hP] at hqP
          simp at hqP
        exact Bool.eq_false_iff.mpr hnot

def partitionSrcW : Dict := [("body", "source|body"), ("arm", "source|arm")]

def partitionTgtW : Dict := [("body", "target|body")]

/-- C8 witness: a concrete source dict with one key matched and one key
missing in the target dict. -/
theorem matching_missing_partition_witness :
    ((get_matching_shapes partitionSrcW partitionTgtW).length +
      (get_missing_shapes partitionSrcW partitionTgtW).length =
        partitionSrcW.length)
    ∧ memKey (get_matching_shapes partitionSrcW partitionTgtW)
        "source|body" = true :=
  ⟨(matching_missing_partition partitionSrcW partitionTgtW (by decide)).1,
   (((matching_missing_partition partitionSrcW partitionTgtW (by decide)).2
      ("body", "source|body") (by decide)).1 (by decide)).1⟩

/-- C9: get_prefix_less_dict returns a dict whose keys contain neither a
pipe nor a colon character, with one entry per prefix-less name, and each
key is mapped to the last element of the input list bearing that
prefix-less name (so among duplicates the earlier elements are dropped). -/
theorem get_prefix_less_dict_spec (elements : List String) :
    (∀ k ∈ (get_prefix_less_dict elements).map Prod.fst,
        '|' ∉ k.data ∧ ':' ∉ k.data)
    ∧ ((get_prefix_less_dict elements).map Prod.fst).Nodup
    ∧ ∀ k, dget? (get_prefix_less_dict elements) k =
        elements.reverse.find? (fun n => get_prefix_less_name n == k) := by
  refine ⟨?_, keys_dictOf_nodup _, ?_⟩
  · intro k hk
    rcases List.mem_map.1 hk with ⟨q, hq, rfl⟩
    have h1 := mem_dictOf _ q hq
    rw [List.map_map] at h1
    rcases List.mem_map.1 h1 with ⟨n, _, hq1⟩
    have hq1' : get_prefix_less_name n = q.1 := hq1
    rw [← hq1']
    constructor
    · intro hc
      have hmem : '|' ∈ afterLast '|' n.data :=
        mem_afterLast_subset ':' (afterLast '|' n.data) '|' hc
      exact not_mem_afterLast '|' n.data hmem
    · exact fun hc => not_mem_afterLast ':' (afterLast '|' n.data) hc
  · intro k
    rw [get_prefix_less_dict, dget?_dictOf, ← List.map_reverse]
    exact dget?_map_pair elements.reverse get_prefix_less_name k

/-- C9 witness: with two elements sharing the prefix-less name "arm", the
dict keeps a single entry mapped to the later element. -/
theorem get_prefix_less_dict_spec_witness :
    dget? (get_prefix_less_dict ["grp|arm", "ns:arm"]) "arm" = some "ns:arm" := by
  rw [(get_prefix_less_dict_spec ["grp|arm", "ns:arm"]).2.2 "arm"]
  rfl

/-! ## Maya dag scene model (flex.query / flex.compare / flex.flex)

A dag node carries its name, its exact node type, whether it is an
intermediate shape, and the names of its ancestor nodes.  `objExists`
models `cmds.objExists`, `objectType` models `cmds.objectType`, and
`ls_dag_exact` models `cmds.ls(group, dagObjects=True, noIntermediate=True,
exactType=(t))`: all non-intermediate dag objects of exactly type `t` that
are the group or live below it. -/

structure DagNode where
  name : String
  nodeType : String
  intermediate : Bool
  ancestors : List String
deriving DecidableEq

structure DagScene where
  nodes : List DagNode
deriving DecidableEq

def objExists (s : DagScene) (name : String) : Bool :=
  s.nodes.any (fun n => n.name == name)

def objectType (s : DagScene) (name : String) : String :=
  ((s.nodes.find? (fun n => n.name == name)).map (fun n => n.nodeType)).getD ""

def ls_dag_exact (s : DagScene) (group ty : String) : List String :=
  (s.nodes.filter (fun n =>
    (n.name == group || n.ancestors.contains group) &&
      n.nodeType == ty && !n.intermediate)).map (fun n => n.name)

inductive FlexError where
  | runtimeError : String → FlexError
  | valueError : String → FlexError
deriving DecidableEq

/-- The list built by the three `shapes.extend(cmds.ls(...))` calls of
flex.query.get_shapes_from_group: mesh, then nurbsCurve, then
nurbsSurface shapes under the group. -/
def shapes_of_group (s : DagScene) (group : String) : List String :=
  ls_dag_exact s group "mesh" ++ ls_dag_exact s group "nurbsCurve"
    ++ ls_dag_exact s group "nurbsSurface"

/-- flex.query.get_shapes_from_group: RuntimeError when the group does not
exist, otherwise collect mesh, nurbsCurve and nurbsSurface shapes under
the group, ValueError when none is found. -/
def get_shapes_from_group (s : DagScene) (group : String) :
    Except FlexError (List String) :=
  if !(objExists s group) then
    .error (.runtimeError ("Given element " ++ group ++ " does not exists."))
  else
    let shapes := shapes_of_group s group
    if shapes = [] then
      .error (.valueError ("No shape(s) found under the given group: " ++ group))
    else
      .ok shapes

/-- flex.compare.get_shapes_from_group: returns None when the group does
not exist, otherwise the mesh shapes under it, or None when there is no
mesh (the function queries the mesh exact type only). -/
def Compare.get_shapes_from_group (s : DagScene) (group : String) :
    Option (List String) :=
  if !(objExists s group) then none
  else
    let shapes := ls_dag_exact s group "mesh"
    if shapes = [] then none else some shapes

/-- C3: query.get_shapes_from_group raises an error exactly when it cannot
return a non-empty shape list: RuntimeError exactly when the group does
not exist, ValueError exactly when it exists but holds no mesh, nurbsCurve
or nurbsSurface shape, and otherwise a non-empty list is returned. -/
theorem get_shapes_from_group_error_iff (s : DagScene) (group : String) :
    ((∃ msg, get_shapes_from_group s group = .error (.runtimeError msg))
        ↔ objExists s group = false)
    ∧ ((∃ msg, get_shapes_from_group s group = .error (.valueError msg))
        ↔ objExists s group = true ∧ shapes_of_group s group = [])
    ∧ (∀ l, get_shapes_from_group s group = .ok l →
        (l ≠ [] ∧ l = shapes_of_group s group)) := by
  by_cases hex : objExists s group
  · by_cases hsh : shapes_of_group s group = []
    · refine ⟨?_, ?_, ?_⟩
      · simp [get_shapes_from_group, hex, hsh]
      · simp [get_shapes_from_group, hex, hsh]
      · intro l hl
        simp [get_shapes_from_group, hex, hsh] at hl
    · refine ⟨?_, ?_, ?_⟩
      · simp [get_shapes_from_group, hex, hsh]
      · simp [get_shapes_from_group, hex, hsh]
      · intro l hl
        simp only [get_shapes_from_group, hex, Bool.not_true, Bool.false_eq_true,
          if_false, if_neg hsh] at hl
        cases hl
        exact ⟨hsh, rfl⟩
  · have hex' : objExists s group = false := by
      cases h : objExists s group
      · rfl
      · exact absurd h hex
    refine ⟨?_, ?_, ?_⟩
    · simp [get_shapes_from_group, hex']
    · simp [get_shapes_from_group, hex']
    · intro l hl
      simp [get_shapes_from_group, hex'] at hl

def c3Scene : DagScene :=
  ⟨[⟨"geo_grp", "transform", false, []⟩,
    ⟨"bodyShape", "mesh", false, ["geo_grp"]⟩,
    ⟨"bodyShapeOrig", "mesh", true, ["geo_grp"]⟩]⟩

/-- C3 witness: on a concrete scene the function returns the non-empty
shape list for an existing populated group. -/
theorem get_shapes_from_group_error_iff_witness :
    get_shapes_from_group c3Scene "geo_grp" = .ok ["bodyShape"] ∧
    ∀ l, get_shapes_from_group c3Scene "geo_grp" = .ok l → l ≠ [] := by
  refine ⟨rfl, fun l hl => ?_⟩
  exact ((get_shapes_from_group_error_iff c3Scene "geo_grp").2.2 l hl).1

theorem mem_ls_dag_exact (s : DagScene) (group ty x : String) :
    x ∈ ls_dag_exact s group ty ↔ ∃ nd ∈ s.nodes, nd.name = x ∧
      (nd.name = group ∨ group ∈ nd.ancestors) ∧ nd.nodeType = ty ∧
      nd.intermediate = false := by
  simp only [ls_dag_exact, List.mem_map, List.mem_filter]
  constructor
  · rintro ⟨nd, ⟨hmem, hpred⟩, rfl⟩
    simp only [Bool.and_eq_true, Bool.or_eq_true, beq_iff_eq] at hpred
    have hanc : nd.name = group ∨ group ∈ nd.ancestors := by
      rcases hpred.1.1 with h | h
      · exact Or.inl h
      · exact Or.inr (by simpa using h)
    exact ⟨nd, hmem, rfl, hanc, hpred.1.2, by simpa using hpred.2⟩
  · rintro ⟨nd, hmem, rfl, hunder, hty, hint⟩
    refine ⟨nd, ⟨hmem, ?_⟩, rfl⟩
    simp only [Bool.and_eq_true, Bool.or_eq_true, beq_iff_eq]
    refine ⟨⟨?_, hty⟩, by simp [hint]⟩
    rcases hunder with h | h
    · exact Or.inl h
    · exact Or.inr (by simpa using h)

def c4Scene : DagScene :=
  ⟨[⟨"geo_grp", "transform", false, []⟩,
    ⟨"bodyShape", "mesh", false, ["geo_grp"]⟩,
    ⟨"wireShape", "nurbsCurve", false, ["geo_grp"]⟩]⟩

/-- C4 counterexample: a non-intermediate nurbsCurve shape under the
group is not collected by the compare module's get_shapes_from_group,
which queries the mesh exact type only. -/
theorem compare_shapes_miss_curve :
    (∃ nd ∈ c4Scene.nodes, nd.name = "wireShape" ∧ nd.nodeType = "nurbsCurve"
      ∧ nd.intermediate = false ∧ "geo_grp" ∈ nd.ancestors)
    ∧ Compare.get_shapes_from_group c4Scene "geo_grp" = some ["bodyShape"]
    ∧ "wireShape" ∉ (["bodyShape"] : List String) := by
  refine ⟨by decide, rfl, by decide⟩

/-- C4 amended: the query module collects exactly the non-intermediate
mesh, nurbsCurve and nurbsSurface shapes under the group, while the
compare module's get_shapes_from_group collects exactly the
non-intermediate mesh shapes (only mesh shapes, as its docstring notes). -/
theorem shapes_from_group_characterization (s : DagScene) (group : String) :
    (∀ x, x ∈ shapes_of_group s group ↔ ∃ nd ∈ s.nodes, nd.name = x ∧
      (nd.name = group ∨ group ∈ nd.ancestors) ∧ nd.intermediate = false ∧
      (nd.nodeType = "mesh" ∨ nd.nodeType = "nurbsCurve" ∨
        nd.nodeType = "nurbsSurface"))
    ∧ (∀ l, Compare.get_shapes_from_group s group = some l →
        ∀ x, x ∈ l ↔ ∃ nd ∈ s.nodes, nd.name = x ∧
          (nd.name = group ∨ group ∈ nd.ancestors) ∧ nd.intermediate = false ∧
          nd.nodeType = "mesh") := by
  constructor
  · intro x
    simp only [shapes_of_group, List.mem_append, mem_ls_dag_exact]
    constructor
    · rintro ((⟨nd, hmem, hx, hu, hty, hi⟩ | ⟨nd, hmem, hx, hu, hty, hi⟩) |
        ⟨nd, hmem, hx, hu, hty, hi⟩)
      · exact ⟨nd, hmem, hx, hu, hi, Or.inl hty⟩
      · exact ⟨nd, hmem, hx, hu, hi, Or.inr (Or.inl hty)⟩
      · exact ⟨nd, hmem, hx, hu, hi, Or.inr (Or.inr hty)⟩
    · rintro ⟨nd, hmem, hx, hu, hi, (hty | hty | hty)⟩
      · exact Or.inl (Or.inl ⟨nd, hmem, hx, hu, hty, hi⟩)
      · exact Or.inl (Or.inr ⟨nd, hmem, hx, hu, hty, hi⟩)
      · exact Or.inr ⟨nd, hmem, hx, hu, hty, hi⟩
  · intro l hl x
    have hl' : l = ls_dag_exact s group "mesh" := by
      by_cases hex : objExists s group
      · by_cases hsh : ls_dag_exact s group "mesh" = []
        · simp [Compare.get_shapes_from_group, hex, hsh] at hl
        · simp only [Compare.get_shapes_from_group, hex, Bool.not_true,
            Bool.false_eq_true, if_false, if_neg hsh] at hl
          exact (Option.some.inj hl).symm
      · have hex' : objExists s group = false := by
          cases h : objExists s group
          · rfl
          · exact absurd h hex
        simp [Compare.get_shapes_from_group, hex'] at hl
    rw [hl', mem_ls_dag_exact]
    constructor
    · rintro ⟨nd, hmem, hx, hu, hty, hi⟩
      exact ⟨nd, hmem, hx, hu, hi, hty⟩
    · rintro ⟨nd, hmem, hx, hu, hi, hty⟩
      exact ⟨nd, hmem, hx, hu, hty, hi⟩

/-- C4 witness: in the concrete scene the mesh shape is collected by both
modules. -/
theorem shapes_from_group_characterization_witness :
    "bodyShape" ∈ shapes_of_group c4Scene "geo_grp" ∧
    "bodyShape" ∈ (["bodyShape"] : List String) :=
  ⟨((shapes_from_group_characterization c4Scene "geo_grp").1 "bodyShape").mpr
      (by decide),
   (((shapes_from_group_characterization c4Scene "geo_grp").2 ["bodyShape"]
      rfl) "bodyShape").mpr (by decide)⟩

/-! ## flex.flex: the Flex tool class -/

/-- The update options gathered by Flex.__gather_ui_options plus the two
per-step arguments read from the options dict by update.update_rig. -/
structure Options where
  deformed : Bool
  mismatched_topologies : Bool
  transformed : Bool
  hold_transform_values : Bool
  user_attributes : Bool
  object_display : Bool
  component_display : Bool
  render_attributes : Bool
  plugin_attributes : Bool
deriving DecidableEq

/-- flex.query.is_valid_group: the group exists and is a transform node. -/
def is_valid_group (s : DagScene) (group : String) : Bool :=
  if !(objExists s group) then false
  else if !(objectType s group == "transform") then false
  else true

structure FlexState where
  source_group : Option String
  target_group : Option String
deriving DecidableEq

/-- Python truthiness of an optional string: None and the empty string are
falsy. -/
def truthy : Option String → Bool
  | none => false
  | some s => !(s == "")

namespace Flex

/-- Flex.__property_check: the validity branch fires only for a truthy
value argument; the same-group branch fires only for a falsy one. -/
def property_check (scene : DagScene) (st : FlexState) (value : Option String) :
    Except String Unit :=
  if truthy value && !(is_valid_group scene (value.getD "")) then
    .error "The given group is not a valid Maya transform node or it simply does not exist on your current Maya session"
  else if (st.source_group == st.target_group) && !(truthy value) then
    .error "The given source and target objects are the same. Nothing to update!"
  else
    .ok ()

/-- The invocation of update.update_rig made at the end of
Flex.update_rig, with the keyword arguments it passes. -/
structure RigCall where
  source : String
  target : String
  options : Options
  analytic : Bool
deriving DecidableEq

/-- Flex.update_rig: raise when a group is unset, run __property_check
with value None, gather the UI options when run_options is falsy, then
invoke the update module's update_rig. -/
def update_rig (scene : DagScene) (st : FlexState) (ui_options : Options)
    (analytic : Bool) (run_options : Option Options) : Except String RigCall :=
  if !(truthy st.source_group) || !(truthy st.target_group) then
    .error "You need to provided a source and target group in order to run the rig update."
  else
    match property_check scene st none with
    | .error e => .error e
    | .ok _ =>
      let opts := match run_options with
        | none => ui_options
        | some o => o
      .ok ⟨st.source_group.getD "", st.target_group.getD "", opts, analytic⟩

end Flex

def c7Scene : DagScene := ⟨[⟨"b", "transform", false, []⟩]⟩

def c7State : FlexState := ⟨some "a", some "b"⟩

def c7Options : Options :=
  ⟨true, true, true, true, true, true, true, true, true⟩

/-- C7 counterexample: the source group "a" is not an existing Maya
transform node, yet Flex.update_rig does not raise ValueError: it
proceeds and triggers the update, because __property_check is called with
value None and its validity branch requires a truthy value. -/
theorem flex_update_rig_skips_validity :
    is_valid_group c7Scene "a" = false ∧
    Flex.update_rig c7Scene c7State c7Options true none =
      .ok ⟨"a", "b", c7Options, true⟩ :=
  ⟨rfl, rfl⟩

theorem flex_update_rig_eval_unset (scene : DagScene) (st : FlexState)
    (ui : Options) (an : Bool) (ro : Option Options)
    (h : truthy st.source_group = false ∨ truthy st.target_group = false) :
    Flex.update_rig scene st ui an ro =
      .error "You need to provided a source and target group in order to run the rig update." := by
  unfold Flex.update_rig
  have hcond : (!(truthy st.source_group) || !(truthy st.target_group)) = true := by
    rcases h with h | h <;> simp [h]
  rw [hcond]
  rfl

theorem flex_update_rig_eval_same (scene : DagScene) (st : FlexState)
    (ui : Options) (an : Bool) (ro : Option Options)
    (h1 : truthy st.source_group = true) (h2 : truthy st.target_group = true)
    (h3 : st.source_group = st.target_group) :
    Flex.update_rig scene st ui an ro =
      .error "The given source and target objects are the same. Nothing to update!" := by
  unfold Flex.update_rig Flex.property_check
  have hcond : (!(truthy st.source_group) || !(truthy st.target_group)) = false := by
    simp [h1, h2]
  rw [hcond]
  have hbeq : (st.source_group == st.target_group) = true := by simpa using h3
  simp [hbeq, truthy]

theorem flex_update_rig_eval_ok (scene : DagScene) (st : FlexState)
    (ui : Options) (an : Bool) (ro : Option Options)
    (h1 : truthy st.source_group = true) (h2 : truthy st.target_group = true)
    (h3 : ¬ st.source_group = st.target_group) :
    Flex.update_rig scene st ui an ro =
      .ok ⟨st.source_group.getD "", st.target_group.getD "", ro.getD ui, an⟩ := by
  unfold Flex.update_rig Flex.property_check
  have hcond : (!(truthy st.source_group) || !(truthy st.target_group)) = false := by
    simp [h1, h2]
  rw [hcond]
  have hbeq : (st.source_group == st.target_group) = false := by simpa using h3
  simp [hbeq, truthy]
  cases ro <;> rfl

/-- C7 amended: Flex.update_rig raises ValueError exactly when the source
or target group is unset (None or empty string) or when the two groups
are equal; it performs no validity check on set groups (the check in
__property_check fires only for a truthy value, and update_rig passes
None); in all other cases it invokes the update module's update_rig,
handing over source, target, the options (run_options when given, else
the gathered UI options) and the analytic flag. -/
theorem flex_update_rig_spec (scene : DagScene) (st : FlexState)
    (ui : Options) (analytic : Bool) (ro : Option Options) :
    ((∃ e, Flex.update_rig scene st ui analytic ro = .error e) ↔
      (truthy st.source_group = false ∨ truthy st.target_group = false ∨
        st.source_group = st.target_group))
    ∧ (∀ c, Flex.update_rig scene st ui analytic ro = .ok c →
        (st.source_group = some c.source ∧ st.target_group = some c.target ∧
          c.options = ro.getD ui ∧ c.analytic = analytic)) := by
  by_cases h1 : truthy st.source_group = true
  · by_cases h2 : truthy st.target_group = true
    · by_cases h3 : st.source_group = st.target_group
      · have he := flex_update_rig_eval_same scene st ui analytic ro h1 h2 h3
        refine ⟨⟨fun _ => Or.inr (Or.inr h3), fun _ => ⟨_, he⟩⟩, ?_⟩
        intro c hc
        rw [he] at hc
        cases hc
      · have he := flex_update_rig_eval_ok scene st ui analytic ro h1 h2 h3
        refine ⟨⟨?_, ?_⟩, ?_⟩
        · rintro ⟨e, hee⟩
          rw [he] at hee
          cases hee
        · rintro (h | h | h)
          · rw [h1] at h; cases h
          · rw [h2] at h; cases h
          · exact absurd h h3
        · intro c hc
          rw [he] at hc
          injection hc with hc2
          subst hc2
          refine ⟨?_, ?_, rfl, rfl⟩
          · cases hsg : st.source_group with
            | none => rw [hsg] at h1; simp [truthy] at h1
            | some s => rfl
          · cases htg : st.target_group with
            | none => rw [htg] at h2; simp [truthy] at h2
            | some s => rfl
    · have h2' : truthy st.target_group = false := by
        cases h : truthy st.target_group
        · rfl
        · exact absurd h h2
      have he := flex_update_rig_eval_unset scene st ui analytic ro (Or.inr h2')
      refine ⟨⟨fun _ => Or.inr (Or.inl h2'), fun _ => ⟨_, he⟩⟩, ?_⟩
      intro c hc
      rw [he] at hc
      cases hc
  · have h1' : truthy st.source_group = false := by
      cases h : truthy st.source_group
      · rfl
      · exact absurd h h1
    have he := flex_update_rig_eval_unset scene st ui analytic ro (Or.inl h1')
    refine ⟨⟨fun _ => Or.inl h1', fun _ => ⟨_, he⟩⟩, ?_⟩
    intro c hc
    rw [he] at hc
    cases hc

def c7WScene : DagScene :=
  ⟨[⟨"src_grp", "transform", false, []⟩, ⟨"tgt_grp", "transform", false, []⟩]⟩

def c7WState : FlexState := ⟨some "src_grp", some "tgt_grp"⟩

/-- C7 witness: a concrete successful run returns the call record for the
two set and distinct groups. -/
theorem flex_update_rig_spec_witness :
    c7WState.source_group = some "src_grp" ∧
    c7WState.target_group = some "tgt_grp" :=
  have h := (flex_update_rig_spec c7WScene c7WState c7Options false none).2
    ⟨"src_grp", "tgt_grp", c7Options, false⟩ rfl
  ⟨h.1, h.2.1⟩

/-! ## flex.attributes and the update.update_rig per-shape dispatch -/

def OBJECT_DISPLAY_ATTRIBUTES : List String :=
  ["visibility", "template", "lodVisibility", "displayHWEnvironment",
   "ignoreHwShader", "hideOnPlayback"]

def COMPONENT_DISPLAY_ATTRIBUTES : List String :=
  ["displayColors", "displayColorChannel", "materialBlend"]

def RENDER_STATS_ATTRIBUTES : List String :=
  ["castsShadows", "receiveShadows", "holdOut", "motionBlur",
   "primaryVisibility", "smoothShading", "visibleInReflections",
   "visibleInRefractions", "doubleSided", "opposite",
   "geometryAntialiasingOverride", "antialiasingLevel",
   "shadingSamplesOverride", "shadingSamples", "maxShadingSamples"]

/-- One call made by the loop body of update.update_rig on a matched
shape pair. -/
inductive RigOp where
  | updateDeformedShape (source target : String) (mismatching_topology : Bool)
  | updateTransformedShape (source target : String) (hold_transform : Bool)
  | updateUserAttributes (source target : String)
  | updateMayaAttributes (source target : String) (attributes : List String)
  | updatePluginAttributes (source target : String)
deriving DecidableEq

/-- The loop body of update.update_rig for one matched shape pair: seven
guarded calls in source order. -/
def update_rig_shape (options : Options) (shape target : String) : List RigOp :=
  (if options.deformed then
    [.updateDeformedShape shape target options.mismatched_topologies] else [])
  ++ (if options.transformed then
    [.updateTransformedShape shape target options.hold_transform_values] else [])
  ++ (if options.user_attributes then
    [.updateUserAttributes shape target] else [])
  ++ (if options.object_display then
    [.updateMayaAttributes shape target OBJECT_DISPLAY_ATTRIBUTES] else [])
  ++ (if options.component_display then
    [.updateMayaAttributes shape target COMPONENT_DISPLAY_ATTRIBUTES] else [])
  ++ (if options.render_attributes then
    [.updateMayaAttributes shape target RENDER_STATS_ATTRIBUTES] else [])
  ++ (if options.plugin_attributes then
    [.updatePluginAttributes shape target] else [])

/-- update.update_rig as the trace of calls it issues while looping over
the matching shapes dict (each key is a source shape, its value the
matched target shape).  The dict itself is produced by
get_matching_shapes_from_group, whose definition is not part of the
sources; the trace is therefore stated over an arbitrary matching dict. -/
def update_rig (matching_shapes : Dict) (options : Options) : List RigOp :=
  matching_shapes.foldr
    (fun p acc => update_rig_shape options p.1 p.2 ++ acc) []

/-- Specification side of C5: the seven update steps in their fixed
order. -/
inductive StepKind where
  | deformed
  | transformed
  | userAttributes
  | objectDisplay
  | componentDisplay
  | renderStats
  | pluginAttributes
deriving DecidableEq

def STEP_ORDER : List StepKind :=
  [.deformed, .transformed, .userAttributes, .objectDisplay,
   .componentDisplay, .renderStats, .pluginAttributes]

def stepEnabled (o : Options) : StepKind → Bool
  | .deformed => o.deformed
  | .transformed => o.transformed
  | .userAttributes => o.user_attributes
  | .objectDisplay => o.object_display
  | .componentDisplay => o.component_display
  | .renderStats => o.render_attributes
  | .pluginAttributes => o.plugin_attributes

def stepOp (o : Options) (shape target : String) : StepKind → RigOp
  | .deformed => .updateDeformedShape shape target o.mismatched_topologies
  | .transformed => .updateTransformedShape shape target o.hold_transform_values
  | .userAttributes => .updateUserAttributes shape target
  | .objectDisplay => .updateMayaAttributes shape target OBJECT_DISPLAY_ATTRIBUTES
  | .componentDisplay => .updateMayaAttributes shape target COMPONENT_DISPLAY_ATTRIBUTES
  | .renderStats => .updateMayaAttributes shape target RENDER_STATS_ATTRIBUTES
  | .pluginAttributes => .updatePluginAttributes shape target

theorem update_rig_shape_eq_filter (o : Options) (shape target : String) :
    update_rig_shape o shape target =
      (STEP_ORDER.filter (stepEnabled o)).map (stepOp o shape target) := by
  rcases o with ⟨d, m, t, h, u, ob, c, r, p⟩
  cases d <;> cases t <;> cases u <;> cases ob <;> cases c <;> cases r <;>
    cases p <;> rfl

/-- C5: for every matched shape pair, update_rig issues exactly the
enabled steps, in the fixed order deformed, transformed, user attributes,
object display, component display, render stats, plugin attributes; a
step appears exactly when its option flag is set, and every entry of the
matching dict is visited in order. -/
theorem update_rig_fixed_order (matching_shapes : Dict) (options : Options) :
    update_rig matching_shapes options =
      matching_shapes.foldr (fun p acc =>
        ((STEP_ORDER.filter (stepEnabled options)).map
          (stepOp options p.1 p.2)) ++ acc) [] := by
  induction matching_shapes with
  | nil => rfl
  | cons q rest ih =>
    simp only [update_rig, List.foldr_cons] at ih ⊢
    rw [ih, update_rig_shape_eq_filter]

/-! ## Maya attribute store (flex.update.update_attribute)

Attributes are keyed by (node, attribute name) and carry a value and a
lock flag.  `lockChangeFails` lists the plugs on which
`cmds.setAttr(..., lock=state)` raises RuntimeError (so
lock_unlock_attribute returns False), and `setFails` lists the plugs on
which setting the value raises (the caught exception of
update_attribute). -/

structure AttrInfo where
  value : Int
  locked : Bool
deriving DecidableEq

structure AttrScene where
  attrs : List ((String × String) × AttrInfo)
  lockChangeFails : List (String × String)
  setFails : List (String × String)
deriving DecidableEq

def attrFind (s : AttrScene) (node attrname : String) : Option AttrInfo :=
  (s.attrs.find? (fun p => p.1 == (node, attrname))).map (fun p => p.2)

/-- cmds.objExists on a node.attribute plug. -/
def attrExists (s : AttrScene) (node attrname : String) : Bool :=
  (attrFind s node attrname).isSome

/-- flex.query.is_lock_attribute (cmds.getAttr lock=True). -/
def is_lock_attribute (s : AttrScene) (node attrname : String) : Bool :=
  ((attrFind s node attrname).map (fun i => i.locked)).getD false

def attrValue (s : AttrScene) (node attrname : String) : Option Int :=
  (attrFind s node attrname).map (fun i => i.value)

def setLocked (s : AttrScene) (node attrname : String) (b : Bool) : AttrScene :=
  { s with attrs := s.attrs.map (fun p =>
      if p.1 == (node, attrname) then (p.1, ⟨p.2.value, b⟩) else p) }

/-- flex.query.lock_unlock_attribute: try cmds.setAttr(lock=state), catch
RuntimeError and report success. -/
def lock_unlock_attribute (s : AttrScene) (node attrname : String)
    (state : Bool) : AttrScene × Bool :=
  if (node, attrname) ∈ s.lockChangeFails then (s, false)
  else (setLocked s node attrname state, true)

def setAttrValue (s : AttrScene) (node attrname : String) (v : Int) : AttrScene :=
  { s with attrs := s.attrs.map (fun p =>
      if p.1 == (node, attrname) then (p.1, ⟨v, p.2.locked⟩) else p) }

inductive UpdateResult where
  | success
  | missingAttr
  | lockedWarning
  | setError
deriving DecidableEq

/-- flex.update.update_attribute: warn and return when the target plug is
missing; read the lock state; warn and return when unlocking fails; get
the source value and set it on the target, returning the exception when
that fails; restore the lock when the plug was locked. -/
def update_attribute (s : AttrScene) (source target attribute_name : String) :
    AttrScene × UpdateResult :=
  if !(attrExists s target attribute_name) then (s, .missingAttr)
  else
    let lock := is_lock_attribute s target attribute_name
    let ur := lock_unlock_attribute s target attribute_name false
    if !ur.2 then (ur.1, .lockedWarning)
    else
      let s1 := ur.1
      match attrFind s1 source attribute_name with
      | none => (s1, .setError)
      | some info =>
        if (target, attribute_name) ∈ s1.setFails then (s1, .setError)
        else
          let s2 := setAttrValue s1 target attribute_name info.value
          if lock then
            ((lock_unlock_attribute s2 target attribute_name true).1, .success)
          else (s2, .success)

/-- flex.update.update_maya_attributes: update_attribute on each listed
attribute in order. -/
def update_maya_attributes (s : AttrScene) (source target : String)
    (attributes : List String) : AttrScene :=
  attributes.foldl (fun st a => (update_attribute st source target a).1) s

theorem find_map_update (l : List ((String × String) × AttrInfo))
    (key k : String × String) (f : AttrInfo → AttrInfo) :
    ((l.map (fun p => if p.1 == key then (p.1, f p.2) else p)).find?
        (fun p => p.1 == k)).map (fun p => p.2) =
      if k = key then
        ((l.find? (fun p => p.1 == k)).map (fun p => p.2)).map f
      else (l.find? (fun p => p.1 == k)).map (fun p => p.2) := by
  induction l with
  | nil => by_cases h : k = key <;> simp [List.find?, h]
  | cons q rest ih =>
    rw [List.map_cons]
    by_cases hq : q.1 = key
    · have hhead : (if q.1 == key then (q.1, f q.2) else q) = (q.1, f q.2) := by
        simp [hq]
      rw [hhead]
      by_cases hk : k = key
      · subst hk
        have hpos : ((q.1, f q.2).1 == k) = true := by simpa using hq
        have hpos2 : (q.1 == k) = true := by simpa using hq
        rw [List.find?_cons_of_pos (p := fun x : (String × String) × AttrInfo => x.1 == k) _ hpos,
          List.find?_cons_of_pos (p := fun x : (String × String) × AttrInfo => x.1 == k) _ hpos2, if_pos rfl]
        rfl
      · have hneg2 : (q.1 == k) = false := by
          simpa using fun hc : q.1 = k => hk (hc ▸ hq)
        have hneg : ((q.1, f q.2).1 == k) = false := hneg2
        rw [List.find?_cons_of_neg (p := fun x : (String × String) × AttrInfo => x.1 == k) _ (by simp [hneg]),
          List.find?_cons_of_neg (p := fun x : (String × String) × AttrInfo => x.1 == k) _ (by simp [hneg2])]
        rw [ih, if_neg hk]
    · have hhead : (if q.1 == key then (q.1, f q.2) else q) = q := by
        simp [hq]
      rw [hhead]
      by_cases hqk : q.1 = k
      · have hk : ¬ k = key := fun hc => hq (hqk.trans hc)
        have hpos : (q.1 == k) = true := by simpa using hqk
        rw [List.find?_cons_of_pos (p := fun x : (String × String) × AttrInfo => x.1 == k) _ hpos,
          List.find?_cons_of_pos (p := fun x : (String × String) × AttrInfo => x.1 == k) _ hpos, if_neg hk]
      · have hneg : (q.1 == k) = false := by simpa using hqk
        rw [List.find?_cons_of_neg (p := fun x : (String × String) × AttrInfo => x.1 == k) _ (by simp [hneg]),
          List.find?_cons_of_neg (p := fun x : (String × String) × AttrInfo => x.1 == k) _ (by simp [hneg])]
        exact ih

theorem attrFind_setLocked (s : AttrScene) (node attrname : String) (b : Bool)
    (n c : String) :
    attrFind (setLocked s node attrname b) n c =
      if (n, c) = (node, attrname) then
        (attrFind s n c).map (fun i => ⟨i.value, b⟩)
      else attrFind s n c := by
  simp only [attrFind, setLocked]
  exact find_map_update s.attrs (node, attrname) (n, c) (fun i => ⟨i.value, b⟩)

theorem attrFind_setAttrValue (s : AttrScene) (node attrname : String) (v : Int)
    (n c : String) :
    attrFind (setAttrValue s node attrname v) n c =
      if (n, c) = (node, attrname) then
        (attrFind s n c).map (fun i => ⟨v, i.locked⟩)
      else attrFind s n c := by
  simp only [attrFind, setAttrValue]
  exact find_map_update s.attrs (node, attrname) (n, c) (fun i => ⟨v, i.locked⟩)

/-- Branch-resolved form of update_attribute: the unlock attempt either
fails on a listed plug leaving the scene unchanged, or unlocks the target
plug; a missing source attribute or a listed set failure returns the
exception; otherwise the value is copied and the lock restored when it
was set. -/
theorem update_attribute_eval (s : AttrScene) (source target a : String) :
    update_attribute s source target a =
      if attrExists s target a = false then (s, .missingAttr)
      else if (target, a) ∈ s.lockChangeFails then (s, .lockedWarning)
      else
        match attrFind (setLocked s target a false) source a with
        | none => (setLocked s target a false, .setError)
        | some info =>
          if (target, a) ∈ s.setFails then (setLocked s target a false, .setError)
          else
            if is_lock_attribute s target a then
              (setLocked (setAttrValue (setLocked s target a false) target a
                info.value) target a true, .success)
            else (setAttrValue (setLocked s target a false) target a
              info.value, .success) := by
  by_cases hex : attrExists s target a = true
  · by_cases hfail : (target, a) ∈ s.lockChangeFails
    · simp [update_attribute, lock_unlock_attribute, hex, hfail]
    · simp only [update_attribute, lock_unlock_attribute, hex, hfail,
        Bool.not_true, Bool.false_eq_true, if_false, if_true,
        Bool.not_false, setLocked, setAttrValue]
      cases hfind : attrFind { s with attrs := s.attrs.map (fun p =>
          if p.1 == (target, a) then (p.1, ⟨p.2.value, false⟩) else p) } source a
      · simp [hex]
      · simp [hex, hfail]
  · have hex' : attrExists s target a = false := by
      cases h : attrExists s target a
      · rfl
      · exact absurd h hex
    simp [update_attribute, hex', hex]

theorem update_attribute_fails_const (s : AttrScene) (source target a : String) :
    (update_attribute s source target a).1.lockChangeFails = s.lockChangeFails ∧
    (update_attribute s source target a).1.setFails = s.setFails := by
  rw [update_attribute_eval]
  by_cases hex : attrExists s target a = false
  · rw [if_pos hex]; exact ⟨rfl, rfl⟩
  · rw [if_neg hex]
    by_cases hfail : (target, a) ∈ s.lockChangeFails
    · rw [if_pos hfail]; exact ⟨rfl, rfl⟩
    · rw [if_neg hfail]
      cases hfind : attrFind (setLocked s target a false) source a with
      | none => exact ⟨rfl, rfl⟩
      | some info =>
        dsimp only
        by_cases hsetf : (target, a) ∈ s.setFails
        · rw [if_pos hsetf]; exact ⟨rfl, rfl⟩
        · rw [if_neg hsetf]
          by_cases hlock : is_lock_attribute s target a = true
          · rw [if_pos hlock]; exact ⟨rfl, rfl⟩
          · rw [if_neg hlock]; exact ⟨rfl, rfl⟩

theorem update_attribute_frame (s : AttrScene) (source target a n c : String)
    (h : ¬ (n = target ∧ c = a)) :
    attrFind (update_attribute s source target a).1 n c = attrFind s n c := by
  have hnp : ¬ (n, c) = (target, a) := by
    intro hc
    exact h ⟨congrArg Prod.fst hc, congrArg Prod.snd hc⟩
  rw [update_attribute_eval]
  by_cases hex : attrExists s target a = false
  · rw [if_pos hex]
  · rw [if_neg hex]
    by_cases hfail : (target, a) ∈ s.lockChangeFails
    · rw [if_pos hfail]
    · rw [if_neg hfail]
      cases hfind : attrFind (setLocked s target a false) source a with
      | none =>
        show attrFind (setLocked s target a false) n c = attrFind s n c
        rw [attrFind_setLocked, if_neg hnp]
      | some info =>
        dsimp only
        by_cases hsetf : (target, a) ∈ s.setFails
        · rw [if_pos hsetf]
          show attrFind (setLocked s target a false) n c = attrFind s n c
          rw [attrFind_setLocked, if_neg hnp]
        · rw [if_neg hsetf]
          by_cases hlock : is_lock_attribute s target a = true
          · rw [if_pos hlock]
            show attrFind (setLocked (setAttrValue (setLocked s target a false)
              target a info.value) target a true) n c = attrFind s n c
            rw [attrFind_setLocked, if_neg hnp, attrFind_setAttrValue,
              if_neg hnp, attrFind_setLocked, if_neg hnp]
          · rw [if_neg hlock]
            show attrFind (setAttrValue (setLocked s target a false) target a
              info.value) n c = attrFind s n c
            rw [attrFind_setAttrValue, if_neg hnp, attrFind_setLocked,
              if_neg hnp]

theorem isSome_omap (f : AttrInfo → AttrInfo) (o : Option AttrInfo) :
    (o.map f).isSome = o.isSome := by
  cases o <;> rfl

theorem update_attribute_exists_eq (s : AttrScene) (source target a n c : String) :
    attrExists (update_attribute s source target a).1 n c = attrExists s n c := by
  by_cases hkey : (n, c) = (target, a)
  · rw [update_attribute_eval]
    by_cases hex : attrExists s target a = false
    · rw [if_pos hex]
    · rw [if_neg hex]
      by_cases hfail : (target, a) ∈ s.lockChangeFails
      · rw [if_pos hfail]
      · rw [if_neg hfail]
        cases hfind : attrFind (setLocked s target a false) source a with
        | none =>
          show attrExists (setLocked s target a false) n c = attrExists s n c
          unfold attrExists
          rw [attrFind_setLocked, if_pos hkey, isSome_omap]
        | some info =>
          dsimp only
          by_cases hsetf : (target, a) ∈ s.setFails
          · rw [if_pos hsetf]
            show attrExists (setLocked s target a false) n c = attrExists s n c
            unfold attrExists
            rw [attrFind_setLocked, if_pos hkey, isSome_omap]
          · rw [if_neg hsetf]
            by_cases hlock : is_lock_attribute s target a = true
            · rw [if_pos hlock]
              show attrExists (setLocked (setAttrValue (setLocked s target a
                false) target a info.value) target a true) n c = attrExists s n c
              unfold attrExists
              rw [attrFind_setLocked, if_pos hkey, attrFind_setAttrValue,
                if_pos hkey, attrFind_setLocked, if_pos hkey,
                isSome_omap, isSome_omap, isSome_omap]
            · rw [if_neg hlock]
              show attrExists (setAttrValue (setLocked s target a false) target
                a info.value) n c = attrExists s n c
              unfold attrExists
              rw [attrFind_setAttrValue, if_pos hkey, attrFind_setLocked,
                if_pos hkey, isSome_omap, isSome_omap]
  · unfold attrExists
    rw [update_attribute_frame s source target a n c
      (fun hc => hkey (by rw [hc.1, hc.2]))]

theorem update_attribute_value (s : AttrScene) (source target a : String)
    (info : AttrInfo) (hne : ¬ source = target)
    (hex : attrExists s target a = true)
    (hlockf : (target, a) ∉ s.lockChangeFails)
    (hsetf : (target, a) ∉ s.setFails)
    (hsrc : attrFind s source a = some info) :
    (update_attribute s source target a).2 = .success ∧
    attrValue (update_attribute s source target a).1 target a =
      some info.value := by
  have hexn : ¬ attrExists s target a = false := by simp [hex]
  have hsrc1 : attrFind (setLocked s target a false) source a = some info := by
    rw [attrFind_setLocked, if_neg (fun hc => hne (congrArg Prod.fst hc))]
    exact hsrc
  rcases Option.isSome_iff_exists.mp hex with ⟨i0, hi0⟩
  rw [update_attribute_eval, if_neg hexn, if_neg hlockf]
  simp only [hsrc1]
  rw [if_neg hsetf]
  by_cases hlock : is_lock_attribute s target a = true
  · rw [if_pos hlock]
    refine ⟨rfl, ?_⟩
    show attrValue (setLocked (setAttrValue (setLocked s target a false)
      target a info.value) target a true) target a = some info.value
    unfold attrValue
    rw [attrFind_setLocked, if_pos rfl, attrFind_setAttrValue, if_pos rfl,
      attrFind_setLocked, if_pos rfl, hi0]
    rfl
  · rw [if_neg hlock]
    refine ⟨rfl, ?_⟩
    show attrValue (setAttrValue (setLocked s target a false) target a
      info.value) target a = some info.value
    unfold attrValue
    rw [attrFind_setAttrValue, if_pos rfl, attrFind_setLocked, if_pos rfl, hi0]
    rfl

/-- C10: update_attribute is total over the modelled host behaviours; a
missing target attribute or a failing unlock leaves the scene unchanged
with a warning result; when the attribute was locked and the set
succeeds, the lock is restored; when the set fails, the exception is
returned and a previously-locked target attribute is left unlocked. -/
theorem update_attribute_spec (s : AttrScene) (source target a : String) :
    (attrExists s target a = false →
        update_attribute s source target a = (s, .missingAttr))
    ∧ (attrExists s target a = true → (target, a) ∈ s.lockChangeFails →
        update_attribute s source target a = (s, .lockedWarning))
    ∧ ((update_attribute s source target a).2 = .success →
        is_lock_attribute s target a = true →
        is_lock_attribute (update_attribute s source target a).1 target a = true)
    ∧ ((update_attribute s source target a).2 = .setError →
        is_lock_attribute s target a = true →
        is_lock_attribute (update_attribute s source target a).1 target a
          = false) := by
  refine ⟨?_, ?_, ?_, ?_⟩
  · intro hex
    rw [update_attribute_eval, if_pos hex]
  · intro hex hfail
    rw [update_attribute_eval, if_neg (by simp [hex]), if_pos hfail]
  · rw [update_attribute_eval]
    by_cases hex : attrExists s target a = false
    · rw [if_pos hex]
      intro hr
      cases hr
    · rw [if_neg hex]
      have hex' : attrExists s target a = true := by
        cases h : attrExists s target a
        · exact absurd h hex
        · rfl
      rcases Option.isSome_iff_exists.mp hex' with ⟨i0, hi0⟩
      by_cases hfail : (target, a) ∈ s.lockChangeFails
      · rw [if_pos hfail]
        intro hr
        cases hr
      · rw [if_neg hfail]
        cases hfind : attrFind (setLocked s target a false) source a with
        | none =>
          intro hr
          cases hr
        | some info =>
          dsimp only
          by_cases hsetf : (target, a) ∈ s.setFails
          · rw [if_pos hsetf]
            intro hr
            cases hr
          · rw [if_neg hsetf]
            by_cases hlock : is_lock_attribute s target a = true
            · rw [if_pos hlock]
              intro _ _
              show is_lock_attribute (setLocked (setAttrValue (setLocked s
                target a false) target a info.value) target a true) target a
                = true
              unfold is_lock_attribute
              rw [attrFind_setLocked, if_pos rfl, attrFind_setAttrValue,
                if_pos rfl, attrFind_setLocked, if_pos rfl, hi0]
              rfl
            · rw [if_neg hlock]
              intro _ hl
              exact absurd hl hlock
  · rw [update_attribute_eval]
    by_cases hex : attrExists s target a = false
    · rw [if_pos hex]
      intro hr
      cases hr
    · rw [if_neg hex]
      have hex' : attrExists s target a = true := by
        cases h : attrExists s target a
        · exact absurd h hex
        · rfl
      rcases Option.isSome_iff_exists.mp hex' with ⟨i0, hi0⟩
      by_cases hfail : (target, a) ∈ s.lockChangeFails
      · rw [if_pos hfail]
        intro hr
        cases hr
      · rw [if_neg hfail]
        cases hfind : attrFind (setLocked s target a false) source a with
        | none =>
          intro _ _
          show is_lock_attribute (setLocked s target a false) target a = false
          unfold is_lock_attribute
          rw [attrFind_setLocked, if_pos rfl, hi0]
          rfl
        | some info =>
          dsimp only
          by_cases hsetf : (target, a) ∈ s.setFails
          · rw [if_pos hsetf]
            intro _ _
            show is_lock_attribute (setLocked s target a false) target a = false
            unfold is_lock_attribute
            rw [attrFind_setLocked, if_pos rfl, hi0]
            rfl
          · rw [if_neg hsetf]
            by_cases hlock : is_lock_attribute s target a = true
            · rw [if_pos hlock]
              intro hr
              cases hr
            · rw [if_neg hlock]
              intro hr
              cases hr

def c10Scene : AttrScene :=
  ⟨[(("pSphereShape1", "visibility"), ⟨1, true⟩),
    (("srcShape", "visibility"), ⟨0, false⟩)], [], []⟩

/-- C10 witness: a locked target attribute is updated successfully and
its lock is restored afterwards. -/
theorem update_attribute_spec_witness :
    (update_attribute c10Scene "srcShape" "pSphereShape1" "visibility").2
      = .success
    ∧ is_lock_attribute c10Scene "pSphereShape1" "visibility" = true
    ∧ is_lock_attribute (update_attribute c10Scene "srcShape" "pSphereShape1"
        "visibility").1 "pSphereShape1" "visibility" = true :=
  ⟨rfl, rfl,
   (update_attribute_spec c10Scene "srcShape" "pSphereShape1"
     "visibility").2.2.1 rfl rfl⟩

theorem update_maya_attributes_frame (source target : String)
    (attributes : List String) :
    ∀ (s : AttrScene) (n c : String), (¬ n = target ∨ c ∉ attributes) →
      attrFind (update_maya_attributes s source target attributes) n c =
        attrFind s n c := by
  induction attributes with
  | nil => intro s n c _; rfl
  | cons b rest ih =>
    intro s n c h
    have hstep : attrFind (update_attribute s source target b).1 n c
        = attrFind s n c := by
      apply update_attribute_frame
      rintro ⟨rfl, rfl⟩
      rcases h with h | h
      · exact h rfl
      · exact h (by simp)
    have hrest : (¬ n = target ∨ c ∉ rest) := by
      rcases h with h | h
      · exact Or.inl h
      · exact Or.inr (fun hc => h (by simp [hc]))
    calc attrFind (update_maya_attributes
          (update_attribute s source target b).1 source target rest) n c
        = attrFind (update_attribute s source target b).1 n c :=
          ih (update_attribute s source target b).1 n c hrest
      _ = attrFind s n c := hstep

theorem update_maya_attributes_value (source target : String)
    (attributes : List String) :
    ∀ s : AttrScene, ¬ source = target →
      ∀ a ∈ attributes, ∀ info : AttrInfo,
        attrExists s target a = true → (target, a) ∉ s.lockChangeFails →
        (target, a) ∉ s.setFails → attrFind s source a = some info →
        attrValue (update_maya_attributes s source target attributes) target a
          = some info.value := by
  induction attributes with
  | nil =>
    intro s _ a ha
    simp at ha
  | cons b rest ih =>
    intro s hne a ha info hex hlockf hsetf hsrc
    by_cases hmem : a ∈ rest
    · have hfc := update_attribute_fails_const s source target b
      have hexists := update_attribute_exists_eq s source target b target a
      have hsrc1 : attrFind (update_attribute s source target b).1 source a
          = attrFind s source a :=
        update_attribute_frame s source target b source a
          (fun hc => hne hc.1)
      exact ih (update_attribute s source target b).1 hne a hmem info
        (by rw [hexists]; exact hex)
        (by rw [hfc.1]; exact hlockf)
        (by rw [hfc.2]; exact hsetf)
        (by rw [hsrc1]; exact hsrc)
    · have hab : a = b := by
        rcases List.mem_cons.1 ha with h | h
        · exact h
        · exact absurd h hmem
      subst hab
      have hval := update_attribute_value s source target a info hne hex
        hlockf hsetf hsrc
      have hframe := update_maya_attributes_frame source target rest
        (update_attribute s source target a).1 target a (Or.inr hmem)
      show attrValue (update_maya_attributes
        (update_attribute s source target a).1 source target rest) target a
          = some info.value
      unfold attrValue
      rw [hframe]
      exact hval.2

/-- The exact per-list effect of update_maya_attributes: attributes
outside the list (or on other nodes) are untouched, and each listed
attribute whose update does not hit a host failure receives the source
value. -/
def updates_exactly (attrs : List String) : Prop :=
  (∀ (s : AttrScene) (source target n c : String),
      (¬ n = target ∨ c ∉ attrs) →
      attrFind (update_maya_attributes s source target attrs) n c
        = attrFind s n c)
  ∧ (∀ (s : AttrScene) (source target : String), ¬ source = target →
      ∀ a ∈ attrs, ∀ info : AttrInfo,
        attrExists s target a = true → (target, a) ∉ s.lockChangeFails →
        (target, a) ∉ s.setFails → attrFind s source a = some info →
        attrValue (update_maya_attributes s source target attrs) target a
          = some info.value)

theorem updates_exactly_all (attrs : List String) : updates_exactly attrs :=
  ⟨fun s source target n c h =>
      update_maya_attributes_frame source target attrs s n c h,
   fun s source target hne a ha info hex h1 h2 h3 =>
      update_maya_attributes_value source target attrs s hne a ha info
        hex h1 h2 h3⟩

/-- C6: with the object display, component display or render stats option
enabled, update_rig updates on the matched target shape exactly the
attributes of the corresponding fixed list (six object display, three
component display, fifteen render stats attributes), copying each value
from the matched source shape, and touches no other attribute. -/
theorem update_display_attributes_exact :
    OBJECT_DISPLAY_ATTRIBUTES = ["visibility", "template", "lodVisibility",
      "displayHWEnvironment", "ignoreHwShader", "hideOnPlayback"]
    ∧ COMPONENT_DISPLAY_ATTRIBUTES = ["displayColors", "displayColorChannel",
      "materialBlend"]
    ∧ RENDER_STATS_ATTRIBUTES = ["castsShadows", "receiveShadows", "holdOut",
      "motionBlur", "primaryVisibility", "smoothShading",
      "visibleInReflections", "visibleInRefractions", "doubleSided",
      "opposite", "geometryAntialiasingOverride", "antialiasingLevel",
      "shadingSamplesOverride", "shadingSamples", "maxShadingSamples"]
    ∧ updates_exactly OBJECT_DISPLAY_ATTRIBUTES
    ∧ updates_exactly COMPONENT_DISPLAY_ATTRIBUTES
    ∧ updates_exactly RENDER_STATS_ATTRIBUTES :=
  ⟨rfl, rfl, rfl, updates_exactly_all _, updates_exactly_all _,
   updates_exactly_all _⟩

def c6Scene : AttrScene :=
  ⟨[(("srcShape", "visibility"), ⟨7, false⟩),
    (("tgtShape", "visibility"), ⟨0, true⟩),
    (("tgtShape", "castsShadows"), ⟨1, false⟩)], [], []⟩

/-- C6 witness: the object display pass copies the source visibility value
onto the target and leaves the render attribute castsShadows untouched. -/
theorem update_display_attributes_exact_witness :
    attrValue (update_maya_attributes c6Scene "srcShape" "tgtShape"
      OBJECT_DISPLAY_ATTRIBUTES) "tgtShape" "visibility" = some 7
    ∧ attrFind (update_maya_attributes c6Scene "srcShape" "tgtShape"
      OBJECT_DISPLAY_ATTRIBUTES) "tgtShape" "castsShadows"
        = attrFind c6Scene "tgtShape" "castsShadows" :=
  ⟨(update_display_attributes_exact.2.2.2.1).2 c6Scene "srcShape" "tgtShape"
      (by decide) "visibility" (by decide) ⟨7, false⟩ rfl (by decide)
      (by decide) rfl,
   (update_display_attributes_exact.2.2.2.1).1 c6Scene "srcShape" "tgtShape"
      "tgtShape" "castsShadows" (Or.inr (by decide))⟩

/-! ## Maya dependency-graph scene (flex.update.update_shape and
update_deformed_shape)

The scene holds node types, directed plug connections (a destination plug
has at most one incoming connection; connectAttr with force breaks the
previous one), per-node geometry content (abstracted as one integer),
uv-set indices and uv-set names, the forced uv-update marks, and vertex
counts.  `dgeval` on a shape's output plug performs pull evaluation:
the node's geometry is recomputed from the connection into its
type-determined input plug. -/

namespace Graph

structure Plug where
  node : String
  attr : String
deriving DecidableEq

structure Scene where
  nodeType : List (String × String)
  connections : List (Plug × Plug)
  geom : List (String × Int)
  uvSets : List (String × List Nat)
  uvName : List (String × String)
  forceUVUpdate : List String
  vertexCount : List (String × Nat)
  bbox : List (String × Int)
deriving DecidableEq

/-- cmds.objectType. -/
def objectType (s : Scene) (n : String) : String :=
  ((s.nodeType.find? (fun p => p.1 == n)).map (fun p => p.2)).getD ""

structure ShapeTypeAttributes where
  points : String
  input : String
  output : String
deriving DecidableEq

/-- flex.query.get_shape_type_attributes: mesh defaults (pnts, inMesh,
outMesh), overridden for nurbs shapes (controlPoints, create, local). -/
def get_shape_type_attributes (s : Scene) (shape : String) : ShapeTypeAttributes :=
  if objectType s shape == "nurbsSurface" || objectType s shape == "nurbsCurve"
  then ⟨"controlPoints", "create", "local"⟩
  else ⟨"pnts", "inMesh", "outMesh"⟩

/-- cmds.connectAttr with force=True: any existing connection into the
destination plug is broken and the new connection appended. -/
def connectAttr (s : Scene) (src dst : Plug) : Scene :=
  { s with connections :=
      (s.connections.filter (fun c => !(c.2 == dst))) ++ [(src, dst)] }

/-- cmds.disconnectAttr. -/
def disconnectAttr (s : Scene) (src dst : Plug) : Scene :=
  { s with connections := s.connections.filter (fun c => !(c == (src, dst))) }

def geomLookup (g : List (String × Int)) (n : String) : Int :=
  ((g.find? (fun p => p.1 == n)).map (fun p => p.2)).getD 0

def geomOf (s : Scene) (n : String) : Int :=
  geomLookup s.geom n

def setGeom : List (String × Int) → String → Int → List (String × Int)
  | [], n, v => [(n, v)]
  | p :: rest, n, v => if p.1 == n then (n, v) :: rest else p :: setGeom rest n v

/-- cmds.dgeval on a plug: pull evaluation recomputes the plug's node
geometry from the connection into the node's input plug. -/
def dgeval (s : Scene) (p : Plug) : Scene :=
  match s.connections.find? (fun c =>
      c.2 == Plug.mk p.node (get_shape_type_attributes s p.node).input) with
  | none => s
  | some c => { s with geom := setGeom s.geom p.node (geomOf s c.1.node) }

/-- flex.update.clean_uvs_sets: on mesh shapes delete every uv set index
other than 0 (map1). -/
def clean_uvs_sets (s : Scene) (shape : String) : Scene :=
  if !(objectType s shape == "mesh") then s
  else { s with uvSets := s.uvSets.map (fun p =>
      if p.1 == shape then (p.1, p.2.filter (fun idx => idx == 0)) else p) }

/-- Modelled from the spec: is_matching_type is imported by flex.update
from flex.query but absent from the sources; shape types match when
cmds.objectType agrees on both shapes. -/
def is_matching_type (s : Scene) (a b : String) : Bool :=
  objectType s a == objectType s b

/-- Modelled from the spec: is_matching_count is imported by flex.update
from flex.query but absent from the sources; vertex counts match when
they are equal. -/
def is_matching_count (s : Scene) (a b : String) : Bool :=
  (((s.vertexCount.find? (fun p => p.1 == a)).map (fun p => p.2)).getD 0)
    == (((s.vertexCount.find? (fun p => p.1 == b)).map (fun p => p.2)).getD 0)

/-- Modelled from the spec: is_matching_bouding_box is imported by
flex.update from flex.query but absent from the sources; bounding boxes
match when the stored extents are equal. -/
def is_matching_bouding_box (s : Scene) (a b : String) : Bool :=
  (((s.bbox.find? (fun p => p.1 == a)).map (fun p => p.2)).getD 0)
    == (((s.bbox.find? (fun p => p.1 == b)).map (fun p => p.2)).getD 0)

/-- flex.update.copy_map1_name: skip on mismatching shape types; the
cmds.getAttr of the source's uvSet[0].uvSetName stands OUTSIDE the try
block, so on a source without a uv set name (uvSet is a mesh-only
attribute, so every nurbs source) it raises an uncaught error, modelled
as none; then try to set the target's uvSet[0].uvSetName, where the
RuntimeError on a target without uvs is caught and the update skipped. -/
def copy_map1_name (s : Scene) (source target : String) : Option Scene :=
  if !(is_matching_type s source target) then some s
  else
    match s.uvName.find? (fun p => p.1 == source) with
    | none => none
    | some pv =>
      if s.uvName.any (fun p => p.1 == target) then
        some { s with uvName := s.uvName.map (fun p =>
            if p.1 == target then (p.1, pv.2) else p) }
      else some s

/-- flex.update.update_uvs_sets: on mesh shapes force the uv refresh by
setting outForceNodeUVUpdate. -/
def update_uvs_sets (s : Scene) (shape : String) : Scene :=
  if !(objectType s shape == "mesh") then s
  else { s with forceUVUpdate := s.forceUVUpdate ++ [shape] }

/-- flex.update.update_shape: clean uv sets on the target, connect the
source output to the target input (force), evaluate the target output,
then disconnect. -/
def update_shape (s : Scene) (source target : String) : Scene :=
  let s0 := clean_uvs_sets s target
  let attributes := get_shape_type_attributes s0 source
  let s1 := connectAttr s0 (Plug.mk source attributes.output)
    (Plug.mk target attributes.input)
  let s2 := dgeval s1 (Plug.mk target attributes.output)
  disconnectAttr s2 (Plug.mk source attributes.output)
    (Plug.mk target attributes.input)

def incomingNodes (s : Scene) (n : String) : List String :=
  (s.connections.filter (fun c => c.2.node == n)).map (fun c => c.1.node)

/-- Fuel-bounded upstream traversal of the connection graph: the model of
cmds.listHistory from a shape's input side, the shape itself included. -/
def historyAux (s : Scene) : Nat → List String → List String → List String
  | 0, _, visited => visited
  | _ + 1, [], visited => visited
  | fuel + 1, n :: queue, visited =>
    if n ∈ visited then historyAux s fuel queue visited
    else historyAux s fuel (queue ++ incomingNodes s n) (visited ++ [n])

def listHistory (s : Scene) (shape : String) : List String :=
  historyAux s ((s.connections.length + 2) * (s.connections.length + 2))
    [shape] []

/-- flex.query.get_shape_orig: the upstream history of the shape's input
attribute filtered down to nodes of the same type, the shape itself
excluded; None when nothing remains. -/
def get_shape_orig (s : Scene) (shape : String) : Option (List String) :=
  let orig_shapes := (listHistory s shape).filter (fun n =>
    objectType s n == objectType s shape && !(n == shape))
  if orig_shapes.isEmpty then none else some orig_shapes

/-- flex.update.update_deformed_shape: return on a target without an orig
shape, on mismatching shape types, or on mismatching counts when
mismatching topologies are not requested; copy the map1 name onto the
orig shape (the uncaught getAttr error in copy_map1_name aborts the whole
update here, modelled as none); delegate to
update_deformed_mismatching_shape (passed here as a parameter,
universally quantified in the theorems) on a mismatching topology with a
matching bounding box; otherwise run update_shape into the orig shape and
force the uv refresh on the target. -/
def update_deformed_shape
    (mismatchUpdate : Scene → String → String → String → Scene)
    (s : Scene) (source target : String) (mismatching_topology : Bool) :
    Option Scene :=
  match get_shape_orig s target with
  | none => some s
  | some deform_origin_list =>
    if !(is_matching_type s source target) then some s
    else if !mismatching_topology && !(is_matching_count s source target) then
      some s
    else
      let deform_origin := deform_origin_list.headD ""
      match copy_map1_name s source deform_origin with
      | none => none
      | some s1 =>
        if mismatching_topology && !(is_matching_count s1 source target)
            && is_matching_bouding_box s1 source target then
          some (mismatchUpdate s1 source target deform_origin)
        else
          let s2 := update_shape s1 source deform_origin
          some (update_uvs_sets s2 target)

end Graph

namespace Graph

theorem clean_uvs_sets_connections (s : Scene) (shape : String) :
    (clean_uvs_sets s shape).connections = s.connections := by
  unfold clean_uvs_sets
  split <;> rfl

theorem clean_uvs_sets_nodeType (s : Scene) (shape : String) :
    (clean_uvs_sets s shape).nodeType = s.nodeType := by
  unfold clean_uvs_sets
  split <;> rfl

theorem clean_uvs_sets_geom (s : Scene) (shape : String) :
    (clean_uvs_sets s shape).geom = s.geom := by
  unfold clean_uvs_sets
  split <;> rfl

theorem copy_map1_name_components (s : Scene) (a b : String) (s1 : Scene)
    (h : copy_map1_name s a b = some s1) :
    s1.connections = s.connections ∧ s1.nodeType = s.nodeType ∧
    s1.geom = s.geom ∧ s1.vertexCount = s.vertexCount := by
  unfold copy_map1_name at h
  split at h
  · cases h
    exact ⟨rfl, rfl, rfl, rfl⟩
  · split at h
    · cases h
    · split at h
      · cases h
        exact ⟨rfl, rfl, rfl, rfl⟩
      · cases h
        exact ⟨rfl, rfl, rfl, rfl⟩

theorem copy_map1_name_isSome (s : Scene) (a b : String)
    (h : s.uvName.any (fun p => p.1 == a) = true) :
    copy_map1_name s a b ≠ none := by
  unfold copy_map1_name
  split
  · simp
  · have hfs : (s.uvName.find? (fun p => p.1 == a)).isSome = true := by
      rw [List.find?_isSome]
      exact List.any_eq_true.1 h
    rcases Option.isSome_iff_exists.mp hfs with ⟨pv, hpv⟩
    rw [hpv]
    dsimp only
    split <;> simp

theorem update_uvs_sets_connections (s : Scene) (shape : String) :
    (update_uvs_sets s shape).connections = s.connections := by
  unfold update_uvs_sets
  split <;> rfl

theorem update_uvs_sets_geom (s : Scene) (shape : String) :
    (update_uvs_sets s shape).geom = s.geom := by
  unfold update_uvs_sets
  split <;> rfl

theorem objectType_congr (sa sb : Scene) (h : sa.nodeType = sb.nodeType)
    (n : String) : objectType sa n = objectType sb n := by
  unfold objectType
  rw [h]

theorem gsta_congr (sa sb : Scene) (x y : String)
    (h : objectType sa x = objectType sb y) :
    get_shape_type_attributes sa x = get_shape_type_attributes sb y := by
  unfold get_shape_type_attributes
  rw [h]

theorem is_matching_count_congr (sa sb : Scene)
    (h : sa.vertexCount = sb.vertexCount) (a b : String) :
    is_matching_count sa a b = is_matching_count sb a b := by
  unfold is_matching_count
  rw [h]

theorem geomLookup_setGeom_same (g : List (String × Int)) (n : String)
    (v : Int) : geomLookup (setGeom g n v) n = v := by
  induction g with
  | nil => simp [setGeom, geomLookup, List.find?]
  | cons p rest ih =>
    by_cases hp : p.1 = n
    · have hp' : (p.1 == n) = true := by simpa using hp
      simp [setGeom, geomLookup, List.find?, hp']
    · have hp' : (p.1 == n) = false := by simpa using hp
      simpa [setGeom, geomLookup, List.find?, hp'] using ih

theorem update_shape_spec (t : Scene) (source target : String)
    (htype : objectType t source = objectType t target)
    (hno : ∀ c ∈ t.connections, ¬ c.2.node = target) :
    (update_shape t source target).connections = t.connections
    ∧ (update_shape t source target).geom
        = setGeom t.geom target (geomLookup t.geom source)
    ∧ (update_shape t source target).nodeType = t.nodeType := by
  unfold update_shape
  set s0 := clean_uvs_sets t target with hs0
  have hs0c : s0.connections = t.connections := clean_uvs_sets_connections t target
  have hs0n : s0.nodeType = t.nodeType := clean_uvs_sets_nodeType t target
  have hs0g : s0.geom = t.geom := clean_uvs_sets_geom t target
  set A := get_shape_type_attributes s0 source with hA
  set dst := Plug.mk target A.input with hdst
  set srcp := Plug.mk source A.output with hsrcp
  have hne_dst : ∀ c ∈ s0.connections, (c.2 == dst) = false := by
    intro c hc
    rw [hs0c] at hc
    have hnode := hno c hc
    have : ¬ c.2 = dst := fun hceq => hnode (by rw [hceq])
    simpa using this
  have hfilter : s0.connections.filter (fun c => !(c.2 == dst))
      = s0.connections := by
    apply List.filter_eq_self.mpr
    intro c hc
    rw [hne_dst c hc]
    rfl
  have hconn1 : (connectAttr s0 srcp dst).connections
      = s0.connections ++ [(srcp, dst)] := by
    simp only [connectAttr]
    rw [hfilter]
  have hAty : get_shape_type_attributes (connectAttr s0 srcp dst) target = A := by
    apply gsta_congr
    calc objectType (connectAttr s0 srcp dst) target
        = objectType s0 target := objectType_congr _ _ rfl target
      _ = objectType t target := objectType_congr _ _ hs0n target
      _ = objectType t source := htype.symm
      _ = objectType s0 source := (objectType_congr _ _ hs0n source).symm
  have hnone : s0.connections.find? (fun c => c.2 == dst) = none := by
    apply List.find?_eq_none.mpr
    intro c hc
    rw [hne_dst c hc]
    simp
  have hfind : (connectAttr s0 srcp dst).connections.find? (fun c =>
      c.2 == Plug.mk target
        (get_shape_type_attributes (connectAttr s0 srcp dst) target).input)
      = some (srcp, dst) := by
    rw [hAty, ← hdst, hconn1, List.find?_append, hnone]
    simp [List.find?]
  have hdg : dgeval (connectAttr s0 srcp dst) (Plug.mk target A.output) =
      { connectAttr s0 srcp dst with
        geom := setGeom (connectAttr s0 srcp dst).geom target
          (geomLookup (connectAttr s0 srcp dst).geom source) } := by
    unfold dgeval
    rw [hfind]
    rfl
  have hdgc : (dgeval (connectAttr s0 srcp dst)
      (Plug.mk target A.output)).connections
      = s0.connections ++ [(srcp, dst)] := by
    rw [hdg]
    exact hconn1
  have hdgg : (dgeval (connectAttr s0 srcp dst)
      (Plug.mk target A.output)).geom
      = setGeom t.geom target (geomLookup t.geom source) := by
    rw [hdg]
    show setGeom (connectAttr s0 srcp dst).geom target
      (geomLookup (connectAttr s0 srcp dst).geom source) = _
    have : (connectAttr s0 srcp dst).geom = t.geom := hs0g
    rw [this]
  have hdgn : (dgeval (connectAttr s0 srcp dst)
      (Plug.mk target A.output)).nodeType = t.nodeType := by
    rw [hdg]
    exact hs0n
  refine ⟨?_, ?_, ?_⟩
  · show (disconnectAttr _ srcp dst).connections = t.connections
    simp only [disconnectAttr]
    rw [hdgc, List.filter_append]
    have h1 : s0.connections.filter (fun c => !(c == (srcp, dst))) = s0.connections := by
      apply List.filter_eq_self.mpr
      intro c hc
      have := hne_dst c hc
      have hcne : ¬ c = (srcp, dst) := by
        intro hceq
        rw [hceq] at this
        simp at this
      simpa using hcne
    have h2 : ([((srcp : Plug), (dst : Plug))].filter
        (fun c => !(c == (srcp, dst)))) = [] := by
      simp
    rw [h1, h2, List.append_nil, hs0c]
  · show (disconnectAttr _ srcp dst).geom = _
    simp only [disconnectAttr]
    exact hdgg
  · show (disconnectAttr _ srcp dst).nodeType = _
    simp only [disconnectAttr]
    exact hdgn

end Graph

namespace Graph

/-- C1 amended: on a matched deformed target shape with matching type and
vertex count whose source shape carries a uv-set name (a mesh source; for
a source without one the unguarded getAttr in copy_map1_name raises),
update_deformed_shape completes and writes the source geometry into the
target's orig/intermediate shape through update_shape (connect source
output to orig input, force evaluation, disconnect); afterwards every
connection that existed on the target before the update still exists (the
whole connection list is unchanged, so all deformer wiring is preserved),
and no connection between the source shape and the target remains.  The
hypotheses state that the target has an orig shape, the types and counts
match, the freshly imported source has no connections, nothing is
connected into the orig shape, and the source has a uv-set name; the
mismatching-topology updater is universally quantified. -/
theorem update_deformed_shape_preserves
    (f : Scene → String → String → String → Scene)
    (s : Scene) (source target orig : String) (tl : List String) (b : Bool)
    (h1 : get_shape_orig s target = some (orig :: tl))
    (h2 : is_matching_type s source target = true)
    (h3 : is_matching_count s source target = true)
    (h4 : ∀ c ∈ s.connections, ¬ c.1.node = source ∧ ¬ c.2.node = source)
    (h5 : ∀ c ∈ s.connections, ¬ c.2.node = orig)
    (h6 : s.uvName.any (fun p => p.1 == source) = true) :
    ∃ s', update_deformed_shape f s source target b = some s'
      ∧ s'.connections = s.connections
      ∧ geomOf s' orig = geomOf s source
      ∧ ∀ c ∈ s'.connections, ¬ c.1.node = source ∧ ¬ c.2.node = source := by
  have horig_mem : orig ∈ (listHistory s target).filter (fun n =>
      objectType s n == objectType s target && !(n == target)) := by
    simp only [get_shape_orig] at h1
    by_cases hemp : ((listHistory s target).filter (fun n =>
        objectType s n == objectType s target && !(n == target))).isEmpty
    · rw [if_pos hemp] at h1
      cases h1
    · rw [if_neg hemp] at h1
      rw [Option.some.inj h1]
      simp
  have hpred := (List.mem_filter.1 horig_mem).2
  have horigty : objectType s orig = objectType s target := by
    have h := hpred
    simp only [Bool.and_eq_true, beq_iff_eq] at h
    exact h.1
  cases hcm : copy_map1_name s source orig with
  | none => exact absurd hcm (copy_map1_name_isSome s source orig h6)
  | some s1 =>
    obtain ⟨htc, htn, htg, htv⟩ := copy_map1_name_components s source orig s1 hcm
    have hcount1 : is_matching_count s1 source target = true := by
      rw [is_matching_count_congr s1 s htv]
      exact h3
    have heval : update_deformed_shape f s source target b
        = some (update_uvs_sets (update_shape s1 source orig) target) := by
      unfold update_deformed_shape
      rw [h1]
      dsimp only
      rw [if_neg (by simp [h2]), if_neg (by simp [h3])]
      simp only [List.headD_cons]
      rw [hcm]
      dsimp only
      rw [if_neg (by simp [hcount1])]
    have htype2 : objectType s1 source = objectType s1 orig := by
      rw [objectType_congr s1 s htn source, objectType_congr s1 s htn orig]
      have hsrcty : objectType s source = objectType s target := by
        simpa [is_matching_type] using h2
      rw [hsrcty, horigty]
    have hno2 : ∀ c ∈ s1.connections, ¬ c.2.node = orig := by
      rw [htc]
      exact h5
    have husp := update_shape_spec s1 source orig htype2 hno2
    refine ⟨update_uvs_sets (update_shape s1 source orig) target, heval,
      ?_, ?_, ?_⟩
    · rw [update_uvs_sets_connections, husp.1, htc]
    · unfold geomOf
      rw [update_uvs_sets_geom, husp.2.1, htg, geomLookup_setGeom_same]
    · intro c hc
      rw [update_uvs_sets_connections, husp.1, htc] at hc
      exact h4 c hc

def c1NurbsScene : Scene :=
  ⟨[("src", "nurbsCurve"), ("tgt", "nurbsCurve"), ("orig", "nurbsCurve"),
    ("skin", "skinCluster")],
   [(⟨"skin", "outputGeometry"⟩, ⟨"tgt", "create"⟩),
    (⟨"orig", "local"⟩, ⟨"skin", "input"⟩)],
   [("src", 7), ("tgt", 1), ("orig", 2)],
   [],
   [],
   [],
   [("src", 8), ("tgt", 8)],
   []⟩

/-- C1 counterexample: a matched deformed nurbsCurve target with a
nurbsCurve source sits inside the claim's scope (orig shape present,
types and counts matching), yet nothing is propagated: a nurbs source
carries no uvSet name, so the unguarded getAttr read in copy_map1_name
raises an uncaught error and update_deformed_shape aborts before
update_shape ever runs. -/
theorem update_deformed_shape_nurbs_crash :
    get_shape_orig c1NurbsScene "tgt" = some ["orig"]
    ∧ is_matching_type c1NurbsScene "src" "tgt" = true
    ∧ is_matching_count c1NurbsScene "src" "tgt" = true
    ∧ update_deformed_shape (fun st _ _ _ => st) c1NurbsScene "src" "tgt"
        false = none :=
  ⟨rfl, rfl, rfl, rfl⟩

def c1Scene : Scene :=
  ⟨[("src", "mesh"), ("tgt", "mesh"), ("orig", "mesh"),
    ("skin", "skinCluster")],
   [(⟨"skin", "outputGeometry"⟩, ⟨"tgt", "inMesh"⟩),
    (⟨"orig", "outMesh"⟩, ⟨"skin", "input"⟩)],
   [("src", 7), ("tgt", 1), ("orig", 2)],
   [("tgt", [0]), ("orig", [0])],
   [("src", "map1"), ("orig", "map1")],
   [],
   [("src", 8), ("tgt", 8)],
   []⟩

/-- C1 witness: in a concrete rigged mesh scene (skin cluster between the
orig and target shapes, the source carrying map1) the update completes,
leaves every connection in place and propagates the source geometry onto
the orig shape. -/
theorem update_deformed_shape_preserves_witness :
    (update_deformed_shape (fun st _ _ _ => st) c1Scene "src" "tgt"
      false).map (fun st => st.connections) = some c1Scene.connections
    ∧ (update_deformed_shape (fun st _ _ _ => st) c1Scene "src" "tgt"
      false).map (fun st => geomOf st "orig")
        = some (geomOf c1Scene "src") := by
  rcases update_deformed_shape_preserves (fun st _ _ _ => st) c1Scene "src"
      "tgt" "orig" [] false (by decide) (by decide) (by decide) (by decide)
      (by decide) (by decide) with ⟨s', heq, hconn, hgeom, _⟩
  rw [heq]
  exact ⟨congrArg some hconn, congrArg some hgeom⟩

end Graph
